/-
  Verification of the NGS datasheet extraction engine
  (src/scripts/parseNGSDatasheets.js, method parseDatasheetFile of
  NGSDatasheetParser, the line-streaming variant with maxBenchmarks = 1000).

  The JavaScript is shallowly embedded: JS numbers are modelled as ℚ with
  NaN represented by `none` (type `JSNum := Option ℚ`), JS `null` fields as
  an outer `Option`, and the per-line regular-expression extraction rules
  are implemented as deterministic matchers that are exact for the specific
  patterns appearing in the source (for these patterns the greedy character
  classes never require backtracking, so leftmost scanning with maximal
  munch coincides with JS regex semantics).
-/
import Mathlib

namespace NGS

/-- JS number: `none` models NaN, `some q` a (finite) numeric value.
    Rationals idealize IEEE doubles; every claim settled here is
    insensitive to rounding. -/
abbrev JSNum := Option ℚ

/-! ## Character classes and string scanning primitives -/

/-- JS `\s` for the characters that can occur in a datasheet line. -/
def isWS (c : Char) : Bool :=
  c = ' ' || c = '\t' || c = '\n' || c = '\r' || c = '\x0b' || c = '\x0c'

/-- JS `\d`. -/
def isDigitCh (c : Char) : Bool := '0' ≤ c && c ≤ '9'

/-- JS `[A-Z0-9]`. -/
def isAZ09 (c : Char) : Bool := ('A' ≤ c && c ≤ 'Z') || isDigitCh c

/-- JS `[\d.]`. -/
def isDigitDot (c : Char) : Bool := isDigitCh c || c = '.'

/-- JS `[\d.-]`. -/
def isDigitDotDash (c : Char) : Bool := isDigitCh c || c = '.' || c = '-'

/-- Decimal digit string to a natural number (JS `parseInt` on a `\d+`
    capture). -/
def digitsToNat (l : List Char) : ℕ :=
  l.foldl (fun n c => n * 10 + (c.toNat - 48)) 0

/-- Substring test on character lists (JS `String.prototype.includes`). -/
def containsList (pat : List Char) : List Char → Bool
  | [] => pat.isEmpty
  | c :: cs => pat.isPrefixOf (c :: cs) || containsList pat cs

/-- JS `line.includes(sub)`. -/
def jsIncludes (s sub : String) : Bool := containsList sub.toList s.toList

/-- Leftmost-match search: try the matcher at each start position from the
    left, first success wins (JS unanchored regex search). -/
def firstSome {β : Type} (f : List Char → Option β) : List Char → Option β
  | [] => f []
  | c :: cs =>
    match f (c :: cs) with
    | some r => some r
    | none => firstSome f cs

/-- Strip an exact literal, returning the remainder. -/
def stripLit : List Char → List Char → Option (List Char)
  | [], l => some l
  | _ :: _, [] => none
  | p :: ps, c :: cs => if p = c then stripLit ps cs else none

/-- Greedy `class+`: at least one character of the class. -/
def takeWhile1 (p : Char → Bool) (l : List Char) : Option (List Char × List Char) :=
  let t := l.takeWhile p
  if t.isEmpty then none else some (t, l.drop t.length)

/-- Expect one exact character. -/
def expectCh (c : Char) : List Char → Option (List Char)
  | [] => none
  | x :: xs => if x = c then some xs else none

/-- JS `parseFloat` restricted to the capture classes `[\d.]+` / `[\d.-]+`
    of the source (optional sign, longest digits/dot prefix; `none` = NaN). -/
def jsParseFloat (s : String) : JSNum :=
  let l := s.toList
  let sgn : Bool × List Char :=
    match l with
    | '-' :: r => (true, r)
    | '+' :: r => (false, r)
    | _ => (false, l)
  let ip := sgn.2.takeWhile isDigitCh
  let l2 := sgn.2.drop ip.length
  let fp : List Char :=
    match l2 with
    | '.' :: r => r.takeWhile isDigitCh
    | _ => []
  if ip.isEmpty && fp.isEmpty then none
  else
    let v : ℚ := (digitsToNat ip : ℚ) + (digitsToNat fp : ℚ) / ((10 : ℚ) ^ fp.length)
    some (if sgn.1 then -v else v)

/-! ## The per-line extraction patterns of `parseDatasheetFile` -/

/-- Captures of `/(\d+)\s+(\d+)\s+([\d.]+)\(([NS])\)\s+(\d+)\s+(\d+)\s+([\d.]+)\(([EW])\)/`
    with `parseInt` already applied to the pure-digit captures. -/
structure PosCap where
  d1 : ℕ
  m1 : ℕ
  s1 : String
  h1 : Char
  d2 : ℕ
  m2 : ℕ
  s2 : String
  h2 : Char
deriving DecidableEq

/-- Match `/PID\s*-\s*([A-Z0-9]+)/` at the current position. -/
def pidAt (l : List Char) : Option String :=
  match stripLit "PID".toList l with
  | none => none
  | some r =>
    match expectCh '-' (r.dropWhile isWS) with
    | none => none
    | some r =>
      match takeWhile1 isAZ09 (r.dropWhile isWS) with
      | none => none
      | some (cap, _) => some (String.mk cap)

/-- Match one half `(\d+)\s+(\d+)\s+([\d.]+)\((H1|H2)\)` of the position
    pattern, returning degrees, minutes, the seconds capture, the
    hemisphere letter, and the remainder. -/
def dmsHalf (hA hB : Char) (l : List Char) : Option ((ℕ × ℕ × String × Char) × List Char) :=
  match takeWhile1 isDigitCh l with
  | none => none
  | some (d, r) =>
    match takeWhile1 isWS r with
    | none => none
    | some (_, r) =>
      match takeWhile1 isDigitCh r with
      | none => none
      | some (m, r) =>
        match takeWhile1 isWS r with
        | none => none
        | some (_, r) =>
          match takeWhile1 isDigitDot r with
          | none => none
          | some (s, r) =>
            match expectCh '(' r with
            | none => none
            | some r =>
              match r with
              | [] => none
              | h :: r =>
                if h = hA || h = hB then
                  match expectCh ')' r with
                  | none => none
                  | some r => some ((digitsToNat d, digitsToNat m, String.mk s, h), r)
                else none

/-- Match the position sextuple pattern at the current position. -/
def posAt (l : List Char) : Option PosCap :=
  match dmsHalf 'N' 'S' l with
  | none => none
  | some (lat, r) =>
    match takeWhile1 isWS r with
    | none => none
    | some (_, r) =>
      match dmsHalf 'E' 'W' r with
      | none => none
      | some (lon, _) =>
        some ⟨lat.1, lat.2.1, lat.2.2.1, lat.2.2.2, lon.1, lon.2.1, lon.2.2.1, lon.2.2.2⟩

/-- Match `/(?:ELLIP HT-|ORTHO HEIGHT\s*-)\s*([\d.-]+)\s*\(meters\)/` at the
    current position, returning the numeric capture. -/
def elevAt (l : List Char) : Option String :=
  let alt : Option (List Char) :=
    match stripLit "ELLIP HT-".toList l with
    | some r => some r
    | none =>
      match stripLit "ORTHO HEIGHT".toList l with
      | none => none
      | some r => expectCh '-' (r.dropWhile isWS)
  match alt with
  | none => none
  | some r =>
    match takeWhile1 isDigitDotDash (r.dropWhile isWS) with
    | none => none
    | some (cap, r) =>
      match stripLit "(meters)".toList (r.dropWhile isWS) with
      | none => none
      | some _ => some (String.mk cap)

/-- Match `/DESIGNATION\s*-\s*(.+)/` at the current position; the trailing
    `\s*` backtracks just enough to leave `(.+)` at least one character. -/
def desigAt (l : List Char) : Option String :=
  match stripLit "DESIGNATION".toList l with
  | none => none
  | some r =>
    match expectCh '-' (r.dropWhile isWS) with
    | none => none
    | some r =>
      if r.isEmpty then none
      else
        let k := min (r.takeWhile isWS).length (r.length - 1)
        some (String.mk (r.drop k))

/-- Result of running every guarded per-line rule of `parseDatasheetFile`
    on one input line. -/
structure LineInfo where
  boundary : Bool
  pid : Option String
  pos : Option PosCap
  elev : Option String
  name : Option String
  ty : Option String
deriving DecidableEq

/-- The guarded line classification of `parseDatasheetFile`:
    each field is `some` exactly when the corresponding `includes` guards
    hold and the regex matches, mirroring lines 166-248 of the source. -/
def classify (line : String) : LineInfo :=
  { boundary := jsIncludes line "National Geodetic Survey, Retrieval Date"
    pid :=
      if jsIncludes line "PID" && jsIncludes line "-" then
        firstSome pidAt line.toList
      else none
    pos :=
      if jsIncludes line "POSITION-" &&
         (jsIncludes line "N)" || jsIncludes line "S)") &&
         (jsIncludes line "W)" || jsIncludes line "E)") then
        firstSome posAt line.toList
      else none
    elev :=
      if jsIncludes line "ELLIP HT-" || jsIncludes line "ORTHO HEIGHT" then
        firstSome elevAt line.toList
      else none
    name :=
      if jsIncludes line "DESIGNATION" && jsIncludes line "-" then
        firstSome desigAt line.toList
      else none
    ty :=
      if jsIncludes line "PACS" then some "Primary Airport Control"
      else if jsIncludes line "CORS" then some "CORS Station"
      else if jsIncludes line "TRIANGULATION" then some "Triangulation Station"
      else if jsIncludes line "VERTICAL" then some "Vertical Control"
      else none }

/-! ## The benchmark record and the segmenter state machine -/

/-- The record built by `parseDatasheetFile` (object literal at lines
    178-187 of the source). -/
structure Benchmark where
  id : Option String
  name : Option String
  type : String
  latitude : Option JSNum
  longitude : Option JSNum
  elevation : Option JSNum
  state : String
  description : Option String
  datasheet_url : Option String
deriving DecidableEq

/-- Freshly initialized record installed at a boundary line. -/
def freshB (stateCode : String) : Benchmark :=
  { id := none, name := none, type := "Control Point", latitude := none,
    longitude := none, elevation := none, state := stateCode,
    description := none, datasheet_url := none }

/-- JS truthiness of a possibly-null number: `null`, `NaN` and `0` are
    falsy. -/
def truthyNum : Option JSNum → Bool
  | some (some q) => q != 0
  | _ => false

/-- JS truthiness of a possibly-null string: `null` and `""` are falsy. -/
def truthyStr : Option String → Bool
  | some s => s != ""
  | none => false

/-- The retention predicate of the source:
    `currentBenchmark.latitude && currentBenchmark.longitude && currentBenchmark.id`. -/
def validB (b : Benchmark) : Bool :=
  truthyNum b.latitude && truthyNum b.longitude && truthyStr b.id

/-- JS `x || dflt` on a nullable string. -/
def jsOrStr (x : Option String) (dflt : String) : String :=
  match x with
  | some s => if s = "" then dflt else s
  | none => dflt

/-- The backfilled description template of the source. -/
def defaultDescription (stateCode : String) (b : Benchmark) : String :=
  "NGS " ++ b.type ++ " control point in " ++ stateCode

/-- Mutations applied to a record at emission time (description backfill
    and datasheet_url assignment, lines 169-170 and 254-255). -/
def finalizeB (stateCode url : String) (b : Benchmark) : Benchmark :=
  { b with description := some (jsOrStr b.description (defaultDescription stateCode b)),
           datasheet_url := some url }

/-- Signed decimal degrees: `deg + min/60 + sec/3600`, then negation on the
    S/W hemisphere (lines 212-216); NaN propagates through. -/
def dmsToDecimal (deg minutes : ℕ) (sec : JSNum) (negHem : Bool) : JSNum :=
  sec.map (fun s =>
    let v : ℚ := (deg : ℚ) + (minutes : ℚ) / 60 + s / 3600
    if negHem then -v else v)

/-- The field-extractor block (lines 190-249): each matched rule mutates
    its field of the open record, in source order. -/
def applyExtract (b : Benchmark) (i : LineInfo) : Benchmark :=
  let b :=
    match i.pid with
    | some p => { b with id := some p }
    | none => b
  let b :=
    match i.pos with
    | some c =>
      { b with latitude := some (dmsToDecimal c.d1 c.m1 (jsParseFloat c.s1) (c.h1 == 'S')),
               longitude := some (dmsToDecimal c.d2 c.m2 (jsParseFloat c.s2) (c.h2 == 'W')) }
    | none => b
  let b :=
    match i.elev with
    | some e => { b with elevation := some (jsParseFloat e) }
    | none => b
  let b :=
    match i.name with
    | some n => { b with name := some n.trim }
    | none => b
  match i.ty with
  | some t => { b with type := t }
  | none => b

/-- Loop state of `parseDatasheetFile`: the open record, the accumulated
    output collection, the emission counter, and whether `break` has fired. -/
structure PState where
  current : Option Benchmark
  benchmarks : List Benchmark
  count : ℕ
  stopped : Bool
deriving DecidableEq

def initState : PState := ⟨none, [], 0, false⟩

/-- `const maxBenchmarks = 1000; // Limit per state for performance` -/
def maxBenchmarks : ℕ := 1000

/-- The boundary-line branch (lines 166-188): emit the previous record if
    valid, `break` once the cap is reached (leaving `currentBenchmark`
    aliased to the just-pushed object), otherwise install a fresh record. -/
def boundaryStep (stateCode url : String) (st : PState) : PState :=
  match st.current with
  | some b =>
    if validB b then
      let fb := finalizeB stateCode url b
      if st.count + 1 ≥ maxBenchmarks then
        { current := some fb, benchmarks := st.benchmarks ++ [fb],
          count := st.count + 1, stopped := true }
      else
        { current := some (freshB stateCode), benchmarks := st.benchmarks ++ [fb],
          count := st.count + 1, stopped := false }
    else
      { st with current := some (freshB stateCode) }
  | none => { st with current := some (freshB stateCode) }

/-- One iteration of the `for await (const line of rl)` loop on an already
    classified line.  After `break`, remaining lines are never read.  The
    boundary branch is followed (on the same line) by the extractor block,
    because the source has no `else` between them. -/
def stepInfo (stateCode url : String) (st : PState) (i : LineInfo) : PState :=
  if st.stopped then st
  else
    let st1 := if i.boundary then boundaryStep stateCode url st else st
    if st1.stopped then st1
    else
      match st1.current with
      | some b => { st1 with current := some (applyExtract b i) }
      | none => st1

def stepLine (stateCode url : String) (st : PState) (line : String) : PState :=
  stepInfo stateCode url st (classify line)

def runLines (stateCode url : String) (st : PState) (lines : List String) : PState :=
  lines.foldl (stepLine stateCode url) st

/-- The end-of-input flush (lines 252-258). -/
def flushState (stateCode url : String) (st : PState) : PState :=
  match st.current with
  | some b =>
    if validB b then
      let fb := finalizeB stateCode url b
      { current := some fb, benchmarks := st.benchmarks ++ [fb],
        count := st.count + 1, stopped := st.stopped }
    else st
  | none => st

/-- `/data/datasheets/${stateCode}/${path.basename(filePath)}` -/
def mkUrl (stateCode fileBase : String) : String :=
  "/data/datasheets/" ++ stateCode ++ "/" ++ fileBase

/-- The full per-file parse: stream the lines through the segmenter, flush
    at end of input, and return the output collection in emission order. -/
def parseDatasheetFile (stateCode fileBase : String) (lines : List String) : List Benchmark :=
  (flushState stateCode (mkUrl stateCode fileBase)
    (runLines stateCode (mkUrl stateCode fileBase) initState lines)).benchmarks

/-- Pure extraction fold over a block of lines belonging to one open
    record. -/
def extFold (b : Benchmark) (lines : List String) : Benchmark :=
  lines.foldl (fun acc l => applyExtract acc (classify l)) b

/-- Modelled from the spec: the claimed "no priority among keywords, the
    last one wins, including when a single line contains more than one of
    the keywords" reading of the type-classification rule — the category of
    the keyword whose occurrence starts rightmost in the line.  Used only to
    state what claim C5 predicts, for comparison with `classify`. -/
def keywordCats : List (String × String) :=
  [("PACS", "Primary Airport Control"), ("CORS", "CORS Station"),
   ("TRIANGULATION", "Triangulation Station"), ("VERTICAL", "Vertical Control")]

def kwAt (l : List Char) : Option String :=
  (keywordCats.find? (fun p => p.1.toList.isPrefixOf l)).map (fun p => p.2)

def lastKwAux : List Char → Option String → Option String
  | [], acc => acc
  | c :: cs, acc =>
    lastKwAux cs
      (match kwAt (c :: cs) with
       | some k => some k
       | none => acc)

def lastKeywordCategory (line : String) : Option String :=
  lastKwAux line.toList none

/-! ## Concrete inputs used by witnesses and counterexamples -/

def bdLine : String := "National Geodetic Survey, Retrieval Date"
def pidLine : String := " PID - AB1234"
def pidZLine : String := " PID - ZZ9999"
def posLine45 : String := " POSITION- 45 30 0.00(N) 122 30 0.00(W)"
def posLine2 : String := " POSITION- 41 0 0.00(N) 76 0 0.00(W)"
def posZeroLine : String := " POSITION- 0 0 0.00(N) 75 0 0.00(W)"
def ellipLine : String := " NAD 83(2011) ELLIP HT- 152.910 (meters)"
def orthoLine : String := " NAVD 88 ORTHO HEIGHT - 143.82 (meters)"
def kwLine : String := " THIS CORS MARK IS VERTICAL"
def comboLine : String := "National Geodetic Survey, Retrieval Date PID - AB9999"

/-- A minimal valid record block. -/
def blk : List String := [bdLine, pidLine, posLine45]

/-- The open record after processing `blk` (coordinate values written as
    the converter expressions; see `bOpen_latitude` / `bOpen_longitude` for
    the evaluated values 45.5 and -122.5). -/
def bOpen : Benchmark :=
  { id := some "AB1234", name := none, type := "Control Point",
    latitude := some (dmsToDecimal 45 30 (jsParseFloat "0.00") false),
    longitude := some (dmsToDecimal 122 30 (jsParseFloat "0.00") true),
    elevation := none, state := "AK", description := none, datasheet_url := none }

/-- `bOpen` after emission-time finalization for region AK. -/
def bFin : Benchmark :=
  { bOpen with description := some "NGS Control Point control point in AK",
               datasheet_url := some "/data/datasheets/AK/AK.txt" }

/-- The emitted record of the block `[bdLine, pidZLine, posLine45]`. -/
def bFinZ : Benchmark :=
  { bFin with id := some "ZZ9999" }

/-! ## Structural lemmas about the state machine -/

theorem runLines_nil (sc url : String) (st : PState) : runLines sc url st [] = st := rfl

theorem runLines_cons (sc url : String) (st : PState) (l : String) (ls : List String) :
    runLines sc url st (l :: ls) = runLines sc url (stepLine sc url st l) ls := rfl

theorem runLines_append (sc url : String) (st : PState) (xs ys : List String) :
    runLines sc url st (xs ++ ys) = runLines sc url (runLines sc url st xs) ys := by
  unfold runLines
  rw [List.foldl_append]

theorem stepInfo_stopped (sc url : String) (st : PState) (i : LineInfo)
    (h : st.stopped = true) : stepInfo sc url st i = st := by
  simp [stepInfo, h]

theorem runLines_of_stopped (sc url : String) (ls : List String) (st : PState)
    (h : st.stopped = true) : runLines sc url st ls = st := by
  induction ls with
  | nil => rfl
  | cons l ls ih =>
    rw [runLines_cons]
    rw [show stepLine sc url st l = st from stepInfo_stopped sc url st (classify l) h]
    exact ih

theorem stepInfo_ext (sc url : String) (st : PState) (i : LineInfo) (b : Benchmark)
    (h1 : st.stopped = false) (h2 : i.boundary = false) (h3 : st.current = some b) :
    stepInfo sc url st i = { st with current := some (applyExtract b i) } := by
  simp [stepInfo, h1, h2, h3]

theorem stepInfo_ext_none (sc url : String) (st : PState) (i : LineInfo)
    (h1 : st.stopped = false) (h2 : i.boundary = false) (h3 : st.current = none) :
    stepInfo sc url st i = st := by
  simp [stepInfo, h1, h2, h3]

theorem stepInfo_boundary_none (sc url : String) (st : PState) (i : LineInfo)
    (h1 : st.stopped = false) (h2 : i.boundary = true) (h3 : st.current = none) :
    stepInfo sc url st i = { st with current := some (applyExtract (freshB sc) i) } := by
  simp [stepInfo, boundaryStep, h1, h2, h3]

theorem stepInfo_boundary_invalid (sc url : String) (st : PState) (i : LineInfo) (b : Benchmark)
    (h1 : st.stopped = false) (h2 : i.boundary = true) (h3 : st.current = some b)
    (hv : validB b = false) :
    stepInfo sc url st i = { st with current := some (applyExtract (freshB sc) i) } := by
  simp [stepInfo, boundaryStep, h1, h2, h3, hv]

theorem stepInfo_boundary_push (sc url : String) (st : PState) (i : LineInfo) (b : Benchmark)
    (h1 : st.stopped = false) (h2 : i.boundary = true) (h3 : st.current = some b)
    (hv : validB b = true) (hlt : st.count + 1 < maxBenchmarks) :
    stepInfo sc url st i =
      ⟨some (applyExtract (freshB sc) i), st.benchmarks ++ [finalizeB sc url b],
       st.count + 1, false⟩ := by
  simp [stepInfo, boundaryStep, h1, h2, h3, hv, Nat.not_le.mpr hlt]

theorem stepInfo_boundary_break (sc url : String) (st : PState) (i : LineInfo) (b : Benchmark)
    (h1 : st.stopped = false) (h2 : i.boundary = true) (h3 : st.current = some b)
    (hv : validB b = true) (hge : maxBenchmarks ≤ st.count + 1) :
    stepInfo sc url st i =
      ⟨some (finalizeB sc url b), st.benchmarks ++ [finalizeB sc url b],
       st.count + 1, true⟩ := by
  simp [stepInfo, boundaryStep, h1, h2, h3, hv, hge]

theorem flushState_valid (sc url : String) (st : PState) (b : Benchmark)
    (h3 : st.current = some b) (hv : validB b = true) :
    flushState sc url st =
      ⟨some (finalizeB sc url b), st.benchmarks ++ [finalizeB sc url b],
       st.count + 1, st.stopped⟩ := by
  simp [flushState, h3, hv]

theorem flushState_invalid (sc url : String) (st : PState) (b : Benchmark)
    (h3 : st.current = some b) (hv : validB b = false) :
    flushState sc url st = st := by
  simp [flushState, h3, hv]

theorem flushState_none (sc url : String) (st : PState)
    (h3 : st.current = none) : flushState sc url st = st := by
  simp [flushState, h3]

theorem validB_finalizeB (sc url : String) (b : Benchmark) :
    validB (finalizeB sc url b) = validB b := rfl

theorem defaultDescription_ne (sc : String) (b : Benchmark) :
    defaultDescription sc b ≠ "" := by
  unfold defaultDescription
  intro h
  have h2 := congrArg String.length h
  simp only [String.length_append] at h2
  have h4 : "NGS ".length = 4 := rfl
  have h0 : "".length = 0 := rfl
  omega

theorem jsOrStr_ne (x : Option String) (d : String) (hd : d ≠ "") :
    jsOrStr x d ≠ "" := by
  unfold jsOrStr
  match x with
  | none => exact hd
  | some s =>
    by_cases hs : s = ""
    · simp [hs, hd]
    · simp [hs]

theorem finalizeB_type (sc url : String) (b : Benchmark) :
    (finalizeB sc url b).type = b.type := rfl

theorem finalizeB_idem (sc url : String) (b : Benchmark) :
    finalizeB sc url (finalizeB sc url b) = finalizeB sc url b := by
  have hne : jsOrStr b.description (defaultDescription sc b) ≠ "" :=
    jsOrStr_ne _ _ (defaultDescription_ne sc b)
  unfold finalizeB
  simp [jsOrStr, hne]
  intro h
  exact absurd h hne

/-! ## Field-level lemmas about the extractor -/

theorem applyExtract_latitude (b : Benchmark) (i : LineInfo) :
    (applyExtract b i).latitude =
      match i.pos with
      | some c => some (dmsToDecimal c.d1 c.m1 (jsParseFloat c.s1) (c.h1 == 'S'))
      | none => b.latitude := by
  obtain ⟨bd, pid, pos, elev, nm, ty⟩ := i
  cases pid <;> cases pos <;> cases elev <;> cases nm <;> cases ty <;> rfl

theorem applyExtract_longitude (b : Benchmark) (i : LineInfo) :
    (applyExtract b i).longitude =
      match i.pos with
      | some c => some (dmsToDecimal c.d2 c.m2 (jsParseFloat c.s2) (c.h2 == 'W'))
      | none => b.longitude := by
  obtain ⟨bd, pid, pos, elev, nm, ty⟩ := i
  cases pid <;> cases pos <;> cases elev <;> cases nm <;> cases ty <;> rfl

theorem applyExtract_elevation (b : Benchmark) (i : LineInfo) :
    (applyExtract b i).elevation =
      match i.elev with
      | some e => some (jsParseFloat e)
      | none => b.elevation := by
  obtain ⟨bd, pid, pos, elev, nm, ty⟩ := i
  cases pid <;> cases pos <;> cases elev <;> cases nm <;> cases ty <;> rfl

theorem applyExtract_type (b : Benchmark) (i : LineInfo) :
    (applyExtract b i).type =
      match i.ty with
      | some t => t
      | none => b.type := by
  obtain ⟨bd, pid, pos, elev, nm, ty⟩ := i
  cases pid <;> cases pos <;> cases elev <;> cases nm <;> cases ty <;> rfl

theorem applyExtract_nil (b : Benchmark) (bd : Bool) :
    applyExtract b ⟨bd, none, none, none, none, none⟩ = b := rfl

theorem extFold_append_singleton (b : Benchmark) (ls : List String) (l : String) :
    extFold b (ls ++ [l]) = applyExtract (extFold b ls) (classify l) := by
  unfold extFold
  rw [List.foldl_append]
  rfl

/-- While a record is open and no boundary line occurs, the machine is
    exactly the extraction fold: benchmarks, count and stop flag are
    untouched and the open record accumulates the field extractions. -/
theorem run_building (sc url : String) (lines : List String) :
    ∀ (st : PState) (b : Benchmark), st.stopped = false → st.current = some b →
      (∀ l ∈ lines, (classify l).boundary = false) →
      runLines sc url st lines = { st with current := some (extFold b lines) } := by
  induction lines with
  | nil =>
    intro st b h1 h2 _
    rw [runLines_nil]
    obtain ⟨cur, bench, cnt, stp⟩ := st
    simp only at h2
    rw [show extFold b [] = b from rfl, ← h2]
  | cons l ls ih =>
    intro st b h1 h2 hnb
    rw [runLines_cons]
    rw [show stepLine sc url st l = stepInfo sc url st (classify l) from rfl]
    rw [stepInfo_ext sc url st (classify l) b h1 (hnb l (List.mem_cons_self l ls)) h2]
    rw [ih { st with current := some (applyExtract b (classify l)) }
        (applyExtract b (classify l)) h1 rfl
        (fun x hx => hnb x (List.mem_cons_of_mem l hx))]
    rfl

theorem extFold_latlong (b : Benchmark) (lines : List String) :
    ((extFold b lines).latitude, (extFold b lines).longitude) =
      ((lines.reverse.find? (fun l => ((classify l).pos).isSome)).bind
          (fun l => (classify l).pos)).elim
        (b.latitude, b.longitude)
        (fun c => (some (dmsToDecimal c.d1 c.m1 (jsParseFloat c.s1) (c.h1 == 'S')),
                   some (dmsToDecimal c.d2 c.m2 (jsParseFloat c.s2) (c.h2 == 'W')))) := by
  induction lines using List.reverseRecOn with
  | nil => rfl
  | append_singleton ls l ih =>
    rw [extFold_append_singleton, List.reverse_append, List.reverse_singleton,
      List.singleton_append]
    cases hp : (classify l).pos with
    | some c =>
      rw [List.find?_cons_of_pos _ (by simp [hp])]
      simp [applyExtract_latitude, applyExtract_longitude, hp]
    | none =>
      rw [List.find?_cons_of_neg _ (by simp [hp])]
      rw [← ih]
      simp [applyExtract_latitude, applyExtract_longitude, hp]

theorem extFold_elevation (b : Benchmark) (lines : List String) :
    (extFold b lines).elevation =
      ((lines.reverse.find? (fun l => ((classify l).elev).isSome)).bind
          (fun l => (classify l).elev)).elim
        b.elevation (fun cap => some (jsParseFloat cap)) := by
  induction lines using List.reverseRecOn with
  | nil => rfl
  | append_singleton ls l ih =>
    rw [extFold_append_singleton, List.reverse_append, List.reverse_singleton,
      List.singleton_append]
    cases hp : (classify l).elev with
    | some e =>
      rw [List.find?_cons_of_pos _ (by simp [hp])]
      simp [applyExtract_elevation, hp]
    | none =>
      rw [List.find?_cons_of_neg _ (by simp [hp])]
      rw [← ih]
      simp [applyExtract_elevation, hp]

theorem extFold_type (b : Benchmark) (lines : List String) :
    (extFold b lines).type =
      ((lines.reverse.find? (fun l => ((classify l).ty).isSome)).bind
          (fun l => (classify l).ty)).getD b.type := by
  induction lines using List.reverseRecOn with
  | nil => rfl
  | append_singleton ls l ih =>
    rw [extFold_append_singleton, List.reverse_append, List.reverse_singleton,
      List.singleton_append]
    cases hp : (classify l).ty with
    | some t =>
      rw [List.find?_cons_of_pos _ (by simp [hp])]
      simp [applyExtract_type, hp]
    | none =>
      rw [List.find?_cons_of_neg _ (by simp [hp])]
      rw [← ih]
      simp [applyExtract_type, hp]

/-! ## Running one minimal record block -/

theorem stepLine_eq (sc url : String) (st : PState) (l : String) :
    stepLine sc url st l = stepInfo sc url st (classify l) := rfl

theorem classify_bdLine :
    classify bdLine = ⟨true, none, none, none, none, none⟩ := by decide

theorem classify_pidLine :
    classify pidLine = ⟨false, some "AB1234", none, none, none, none⟩ := by decide

theorem classify_posLine45 :
    classify posLine45 =
      ⟨false, none, some ⟨45, 30, "0.00", 'N', 122, 30, "0.00", 'W'⟩,
       none, none, none⟩ := by decide

theorem jsParseFloat_000 : jsParseFloat "0.00" = some 0 := by
  have h : jsParseFloat "0.00" =
      some (((0 : ℕ) : ℚ) + ((0 : ℕ) : ℚ) / (10 : ℚ) ^ (2 : ℕ)) := rfl
  rw [h]
  norm_num

theorem bOpen_latitude : bOpen.latitude = some (some (91/2)) := by
  show some (dmsToDecimal 45 30 (jsParseFloat "0.00") false) = some (some (91/2))
  rw [jsParseFloat_000]
  unfold dmsToDecimal
  simp only [Option.map_some]
  norm_num

theorem bOpen_longitude : bOpen.longitude = some (some (-(245/2))) := by
  show some (dmsToDecimal 122 30 (jsParseFloat "0.00") true) = some (some (-(245/2)))
  rw [jsParseFloat_000]
  unfold dmsToDecimal
  simp only [Option.map_some]
  norm_num

theorem validB_bOpen : validB bOpen = true := by
  unfold validB
  rw [show bOpen.latitude = some (some (91/2)) from bOpen_latitude,
    show bOpen.longitude = some (some (-(245/2))) from bOpen_longitude]
  unfold truthyNum truthyStr
  rw [show bOpen.id = some "AB1234" from rfl]
  simp only [Bool.and_eq_true, bne_iff_ne]
  exact ⟨⟨by norm_num, by norm_num⟩, by decide⟩

/-- Processing one minimal valid block `blk` from a building, valid,
    below-cap state: the previous record is emitted and the new open record
    is `bOpen`. -/
theorem runLines_blk (st : PState) (b : Benchmark)
    (h1 : st.stopped = false) (h2 : st.current = some b)
    (hv : validB b = true) (hlt : st.count + 1 < maxBenchmarks) :
    runLines "AK" (mkUrl "AK" "AK.txt") st blk =
      ⟨some bOpen, st.benchmarks ++ [finalizeB "AK" (mkUrl "AK" "AK.txt") b],
       st.count + 1, false⟩ := by
  have e1 := stepInfo_boundary_push "AK" (mkUrl "AK" "AK.txt") st
    ⟨true, none, none, none, none, none⟩ b h1 rfl h2 hv hlt
  rw [applyExtract_nil] at e1
  show runLines "AK" (mkUrl "AK" "AK.txt") st [bdLine, pidLine, posLine45] = _
  rw [runLines_cons, stepLine_eq, classify_bdLine, e1]
  rw [runLines_cons, stepLine_eq, classify_pidLine,
    stepInfo_ext _ _ _ _ (freshB "AK") rfl rfl rfl]
  rw [runLines_cons, stepLine_eq, classify_posLine45,
    stepInfo_ext _ _ _ _ (applyExtract (freshB "AK") ⟨false, some "AB1234", none, none, none, none⟩)
      rfl rfl rfl]
  rw [runLines_nil]
  have e2 : applyExtract
      (applyExtract (freshB "AK") ⟨false, some "AB1234", none, none, none, none⟩)
      ⟨false, none, some ⟨45, 30, "0.00", 'N', 122, 30, "0.00", 'W'⟩, none, none, none⟩ =
      bOpen := rfl
  rw [e2]

theorem finalizeB_bOpen :
    finalizeB "AK" (mkUrl "AK" "AK.txt") bOpen = bFin := rfl

/-- State of the machine after `n + 1` copies of the minimal block
    (`n ≤ 999`, so the cap never fires): `n` emitted records and one open
    record. -/
theorem blockRun : ∀ n : ℕ, n ≤ 999 →
    runLines "AK" (mkUrl "AK" "AK.txt") initState (List.flatten (List.replicate (n + 1) blk)) =
      ⟨some bOpen, List.replicate n bFin, n, false⟩ := by
  intro n
  induction n with
  | zero =>
    intro _
    have h : List.flatten (List.replicate 1 blk) = blk := by simp
    rw [h]
    show runLines "AK" (mkUrl "AK" "AK.txt") initState blk = ⟨some bOpen, [], 0, false⟩
    rfl
  | succ n ih =>
    intro hle
    have hrep : List.replicate (n + 1 + 1) blk = List.replicate (n + 1) blk ++ [blk] :=
      List.replicate_succ' (n + 1) blk
    rw [hrep, List.flatten_append, runLines_append, ih (by omega)]
    have hfl : List.flatten [blk] = blk := by simp
    rw [hfl]
    rw [runLines_blk ⟨some bOpen, List.replicate n bFin, n, false⟩ bOpen rfl rfl
      validB_bOpen (by show n + 1 < maxBenchmarks; unfold maxBenchmarks; omega)]
    rw [finalizeB_bOpen, ← List.replicate_succ' n bFin]

/-- When a boundary line finalizes a valid record and that emission reaches
    the cap, the loop breaks with `currentBenchmark` still aliased to the
    emitted object: the rest of the file is never read and the EOF flush
    appends the same record once more. -/
theorem break_emit (sc base : String) (pre rest : List String) (bd : String)
    (st : PState) (b : Benchmark)
    (hrun : runLines sc (mkUrl sc base) initState pre = st)
    (hstop : st.stopped = false) (hcur : st.current = some b)
    (hv : validB b = true) (hcnt : maxBenchmarks ≤ st.count + 1)
    (hbd : (classify bd).boundary = true) :
    parseDatasheetFile sc base (pre ++ bd :: rest) =
      st.benchmarks ++ [finalizeB sc (mkUrl sc base) b, finalizeB sc (mkUrl sc base) b] := by
  unfold parseDatasheetFile
  rw [runLines_append, hrun, runLines_cons, stepLine_eq,
    stepInfo_boundary_break sc (mkUrl sc base) st (classify bd) b hstop hbd hcur hv hcnt,
    runLines_of_stopped _ _ _ _ rfl,
    flushState_valid sc (mkUrl sc base) _ (finalizeB sc (mkUrl sc base) b) rfl
      (by rw [validB_finalizeB]; exact hv),
    finalizeB_idem]
  simp

/-! ## Provenance of every record in the output collection -/

theorem truthyNum_true (x : Option JSNum) (h : truthyNum x = true) :
    ∃ q : ℚ, x = some (some q) ∧ q ≠ 0 := by
  match x with
  | none => exact absurd h (by simp [truthyNum])
  | some none => exact absurd h (by simp [truthyNum])
  | some (some q) =>
    refine ⟨q, rfl, ?_⟩
    have :=h
    unfold truthyNum at this
    exact bne_iff_ne.mp this

theorem truthyStr_true (x : Option String) (h : truthyStr x = true) :
    ∃ s : String, x = some s ∧ s ≠ "" := by
  match x with
  | none => exact absurd h (by simp [truthyStr])
  | some s =>
    refine ⟨s, rfl, ?_⟩
    have := h
    unfold truthyStr at this
    exact bne_iff_ne.mp this

/-- Any record present after one step either was already emitted or is the
    finalization of a record that passed the validity predicate. -/
theorem stepInfo_mem (sc url : String) (st : PState) (i : LineInfo) (r : Benchmark)
    (hr : r ∈ (stepInfo sc url st i).benchmarks) :
    r ∈ st.benchmarks ∨
      ∃ b, st.current = some b ∧ validB b = true ∧ r = finalizeB sc url b := by
  by_cases hs : st.stopped = true
  · rw [stepInfo_stopped _ _ _ _ hs] at hr
    exact Or.inl hr
  · have hs' : st.stopped = false := by simpa using hs
    by_cases hb : i.boundary = true
    · cases hc : st.current with
      | none =>
        rw [stepInfo_boundary_none _ _ _ _ hs' hb hc] at hr
        exact Or.inl hr
      | some b =>
        by_cases hv : validB b = true
        · by_cases hcap : maxBenchmarks ≤ st.count + 1
          · rw [stepInfo_boundary_break _ _ _ _ _ hs' hb hc hv hcap] at hr
            rcases List.mem_append.mp hr with h | h
            · exact Or.inl h
            · exact Or.inr ⟨b, rfl, hv, by simpa using h⟩
          · rw [stepInfo_boundary_push _ _ _ _ _ hs' hb hc hv (by omega)] at hr
            rcases List.mem_append.mp hr with h | h
            · exact Or.inl h
            · exact Or.inr ⟨b, rfl, hv, by simpa using h⟩
        · have hv' : validB b = false := by simpa using hv
          rw [stepInfo_boundary_invalid _ _ _ _ _ hs' hb hc hv'] at hr
          exact Or.inl hr
    · have hb' : i.boundary = false := by simpa using hb
      cases hc : st.current with
      | none =>
        rw [stepInfo_ext_none _ _ _ _ hs' hb' hc] at hr
        exact Or.inl hr
      | some b =>
        rw [stepInfo_ext _ _ _ _ _ hs' hb' hc] at hr
        exact Or.inl hr

theorem flushState_mem (sc url : String) (st : PState) (r : Benchmark)
    (hr : r ∈ (flushState sc url st).benchmarks) :
    r ∈ st.benchmarks ∨
      ∃ b, st.current = some b ∧ validB b = true ∧ r = finalizeB sc url b := by
  cases hc : st.current with
  | none =>
    rw [flushState_none _ _ _ hc] at hr
    exact Or.inl hr
  | some b =>
    by_cases hv : validB b = true
    · rw [flushState_valid _ _ _ _ hc hv] at hr
      rcases List.mem_append.mp hr with h | h
      · exact Or.inl h
      · exact Or.inr ⟨b, rfl, hv, by simpa using h⟩
    · have hv' : validB b = false := by simpa using hv
      rw [flushState_invalid _ _ _ _ hc hv'] at hr
      exact Or.inl hr

theorem runLines_mem (sc url : String) (P : Benchmark → Prop)
    (hP : ∀ b, validB b = true → P (finalizeB sc url b)) (ls : List String) :
    ∀ st : PState, (∀ r ∈ st.benchmarks, P r) →
      ∀ r ∈ (runLines sc url st ls).benchmarks, P r := by
  induction ls with
  | nil =>
    intro st h
    exact h
  | cons l ls ih =>
    intro st h r hr
    rw [runLines_cons] at hr
    refine ih (stepLine sc url st l) ?_ r hr
    intro r' hr'
    rcases stepInfo_mem sc url st (classify l) r' hr' with h1 | ⟨b, _, hv, he⟩
    · exact h r' h1
    · rw [he]
      exact hP b hv

/-- Every record of the output collection is the finalization of a record
    that passed the validity predicate at its emission point. -/
theorem parse_mem (sc base : String) (lines : List String) (P : Benchmark → Prop)
    (hP : ∀ b, validB b = true → P (finalizeB sc (mkUrl sc base) b)) :
    ∀ r ∈ parseDatasheetFile sc base lines, P r := by
  intro r hr
  unfold parseDatasheetFile at hr
  rcases flushState_mem _ _ _ _ hr with h1 | ⟨b, _, hv, he⟩
  · exact runLines_mem sc (mkUrl sc base) P hP lines initState (by intro x hx; cases hx) r h1
  · rw [he]
    exact hP b hv

/-! ## The output collection is bounded -/

theorem stepInfo_count (sc url : String) (st : PState) (i : LineInfo)
    (h1 : st.benchmarks.length = st.count)
    (h2 : st.stopped = false → st.count ≤ 999)
    (h3 : st.stopped = true → st.count ≤ 1000) :
    (stepInfo sc url st i).benchmarks.length = (stepInfo sc url st i).count ∧
    ((stepInfo sc url st i).stopped = false → (stepInfo sc url st i).count ≤ 999) ∧
    ((stepInfo sc url st i).stopped = true → (stepInfo sc url st i).count ≤ 1000) := by
  by_cases hs : st.stopped = true
  · rw [stepInfo_stopped _ _ _ _ hs]
    exact ⟨h1, h2, h3⟩
  · have hs' : st.stopped = false := by simpa using hs
    have hle := h2 hs'
    by_cases hb : i.boundary = true
    · cases hc : st.current with
      | none =>
        rw [stepInfo_boundary_none _ _ _ _ hs' hb hc]
        exact ⟨h1, fun _ => hle, fun h => Bool.noConfusion (hs'.symm.trans h)⟩
      | some b =>
        by_cases hv : validB b = true
        · by_cases hcap : maxBenchmarks ≤ st.count + 1
          · rw [stepInfo_boundary_break _ _ _ _ _ hs' hb hc hv hcap]
            refine ⟨by simp [List.length_append, h1], fun h => Bool.noConfusion h, fun _ => ?_⟩
            show st.count + 1 ≤ 1000
            omega
          · rw [stepInfo_boundary_push _ _ _ _ _ hs' hb hc hv (by omega)]
            have hcap' : st.count + 1 < maxBenchmarks := by omega
            unfold maxBenchmarks at hcap'
            refine ⟨by simp [List.length_append, h1], fun _ => ?_, fun h => Bool.noConfusion h⟩
            show st.count + 1 ≤ 999
            omega
        · have hv' : validB b = false := by simpa using hv
          rw [stepInfo_boundary_invalid _ _ _ _ _ hs' hb hc hv']
          exact ⟨h1, fun _ => hle, fun h => Bool.noConfusion (hs'.symm.trans h)⟩
    · have hb' : i.boundary = false := by simpa using hb
      cases hc : st.current with
      | none =>
        rw [stepInfo_ext_none _ _ _ _ hs' hb' hc]
        exact ⟨h1, h2, h3⟩
      | some b =>
        rw [stepInfo_ext _ _ _ _ _ hs' hb' hc]
        exact ⟨h1, fun _ => hle, fun h => Bool.noConfusion (hs'.symm.trans h)⟩

theorem runLines_count (sc url : String) (ls : List String) :
    ∀ st : PState, st.benchmarks.length = st.count →
      (st.stopped = false → st.count ≤ 999) →
      (st.stopped = true → st.count ≤ 1000) →
      (runLines sc url st ls).benchmarks.length = (runLines sc url st ls).count ∧
      ((runLines sc url st ls).stopped = false → (runLines sc url st ls).count ≤ 999) ∧
      ((runLines sc url st ls).stopped = true → (runLines sc url st ls).count ≤ 1000) := by
  induction ls with
  | nil =>
    intro st h1 h2 h3
    exact ⟨h1, h2, h3⟩
  | cons l ls ih =>
    intro st h1 h2 h3
    rw [runLines_cons]
    have hstep := stepInfo_count sc url st (classify l) h1 h2 h3
    exact ih (stepLine sc url st l) hstep.1 hstep.2.1 hstep.2.2

/-! ## Evaluated coordinate and elevation values -/

theorem jsParseFloat_14382 : jsParseFloat "143.82" = some (14382/100) := by
  have h : jsParseFloat "143.82" =
      some (((143 : ℕ) : ℚ) + ((82 : ℕ) : ℚ) / (10 : ℚ) ^ (2 : ℕ)) := rfl
  rw [h]
  norm_num

theorem jsParseFloat_15291 : jsParseFloat "152.910" = some (15291/100) := by
  have h : jsParseFloat "152.910" =
      some (((152 : ℕ) : ℚ) + ((910 : ℕ) : ℚ) / (10 : ℚ) ^ (3 : ℕ)) := rfl
  rw [h]
  norm_num

theorem dms_zero_sec (d m : ℕ) (neg : Bool) :
    dmsToDecimal d m (jsParseFloat "0.00") neg =
      some (if neg then -((d : ℚ) + (m : ℚ) / 60) else (d : ℚ) + (m : ℚ) / 60) := by
  rw [jsParseFloat_000]
  unfold dmsToDecimal
  simp only [Option.map_some]
  cases neg <;> norm_num

theorem dms_45_30 : dmsToDecimal 45 30 (jsParseFloat "0.00") false = some (91/2) := by
  rw [dms_zero_sec]
  norm_num

theorem dms_122_30W : dmsToDecimal 122 30 (jsParseFloat "0.00") true = some (-(245/2)) := by
  rw [dms_zero_sec]
  norm_num

theorem dms_41 : dmsToDecimal 41 0 (jsParseFloat "0.00") false = some 41 := by
  rw [dms_zero_sec]
  norm_num

theorem dms_76W : dmsToDecimal 76 0 (jsParseFloat "0.00") true = some (-76) := by
  rw [dms_zero_sec]
  norm_num

theorem dms_0 : dmsToDecimal 0 0 (jsParseFloat "0.00") false = some 0 := by
  rw [dms_zero_sec]
  norm_num

theorem dms_75W : dmsToDecimal 75 0 (jsParseFloat "0.00") true = some (-75) := by
  rw [dms_zero_sec]
  norm_num

theorem validB_truthy_fields (b : Benchmark) (lq lq2 : ℚ) (s : String)
    (hlat : b.latitude = some (some lq)) (hlon : b.longitude = some (some lq2))
    (hid : b.id = some s) (hql : lq ≠ 0) (hq2 : lq2 ≠ 0) (hs : s ≠ "") :
    validB b = true := by
  unfold validB
  rw [hlat, hlon, hid]
  simp [truthyNum, truthyStr, hql, hq2, hs]

theorem applyExtract_nomatch (b : Benchmark) (i : LineInfo)
    (h1 : i.pid = none) (h2 : i.pos = none) (h3 : i.elev = none)
    (h4 : i.name = none) (h5 : i.ty = none) : applyExtract b i = b := by
  obtain ⟨bd, pid, pos, elev, nm, ty⟩ := i
  simp only at h1 h2 h3 h4 h5
  subst h1
  subst h2
  subst h3
  subst h4
  subst h5
  rfl

/-- Evaluation of the one-block parse. -/
theorem parse_blk_eq : parseDatasheetFile "AK" "AK.txt" blk = [bFin] := by
  unfold parseDatasheetFile
  rw [show runLines "AK" (mkUrl "AK" "AK.txt") initState blk =
      ⟨some bOpen, [], 0, false⟩ from rfl]
  rw [flushState_valid _ _ _ bOpen rfl validB_bOpen, finalizeB_bOpen]
  rfl

/-! ## Claim C1 -/

/-- C1, counterexample: at end of input a record is open whose `id`,
    `latitude` and `longitude` are all non-null (latitude was set to
    exactly 0 by the position rule), yet the output collection is empty —
    refuting retention "iff all three are non-null". -/
theorem c1_retention_counterexample :
    ((runLines "AK" (mkUrl "AK" "AK.txt") initState
        [bdLine, pidLine, posZeroLine]).current.map
      (fun r => (r.id.isSome, r.latitude.isSome, r.longitude.isSome))) =
      some (true, true, true) ∧
    parseDatasheetFile "AK" "AK.txt" [bdLine, pidLine, posZeroLine] = [] := by
  refine ⟨rfl, ?_⟩
  have hv : validB (⟨some "AB1234", none, "Control Point",
      some (dmsToDecimal 0 0 (jsParseFloat "0.00") false),
      some (dmsToDecimal 75 0 (jsParseFloat "0.00") true),
      none, "AK", none, none⟩ : Benchmark) = false := by
    unfold validB
    show (truthyNum (some (dmsToDecimal 0 0 (jsParseFloat "0.00") false)) &&
      truthyNum (some (dmsToDecimal 75 0 (jsParseFloat "0.00") true)) &&
      truthyStr (some "AB1234")) = false
    rw [dms_0]
    rw [show truthyNum (some (some (0 : ℚ))) = false from by decide]
    rw [Bool.false_and, Bool.false_and]
  unfold parseDatasheetFile
  rw [show runLines "AK" (mkUrl "AK" "AK.txt") initState [bdLine, pidLine, posZeroLine] =
      ⟨some ⟨some "AB1234", none, "Control Point",
        some (dmsToDecimal 0 0 (jsParseFloat "0.00") false),
        some (dmsToDecimal 75 0 (jsParseFloat "0.00") true),
        none, "AK", none, none⟩, [], 0, false⟩ from rfl]
  rw [flushState_invalid _ _ _ _ rfl hv]

/-- C1, amended: at every finalization event (a boundary line processed
    while a record is open, or the end-of-input flush) the record is
    appended iff its latitude, longitude and id are all *truthy* — non-null
    and different from 0 / the empty string — and nothing else decides
    retention at that event. -/
theorem c1_truthy_retention (sc url : String) (st : PState) (b : Benchmark) (line : String)
    (hstop : st.stopped = false) (hcur : st.current = some b)
    (hbd : (classify line).boundary = true) :
    ((stepLine sc url st line).benchmarks =
      st.benchmarks ++
        (if truthyNum b.latitude && truthyNum b.longitude && truthyStr b.id
         then [finalizeB sc url b] else [])) ∧
    ((flushState sc url st).benchmarks =
      st.benchmarks ++
        (if truthyNum b.latitude && truthyNum b.longitude && truthyStr b.id
         then [finalizeB sc url b] else [])) := by
  have hvb : (truthyNum b.latitude && truthyNum b.longitude && truthyStr b.id) = validB b := rfl
  rw [hvb]
  constructor
  · rw [stepLine_eq]
    by_cases hv : validB b = true
    · rw [hv, if_pos rfl]
      by_cases hcap : maxBenchmarks ≤ st.count + 1
      · rw [stepInfo_boundary_break _ _ _ _ _ hstop hbd hcur hv hcap]
      · rw [stepInfo_boundary_push _ _ _ _ _ hstop hbd hcur hv (by omega)]
    · have hv' : validB b = false := by simpa using hv
      rw [hv', if_neg (by simp), stepInfo_boundary_invalid _ _ _ _ _ hstop hbd hcur hv']
      simp
  · by_cases hv : validB b = true
    · rw [hv, if_pos rfl, flushState_valid _ _ _ _ hcur hv]
    · have hv' : validB b = false := by simpa using hv
      rw [hv', if_neg (by simp), flushState_invalid _ _ _ _ hcur hv']
      simp

/-- C1 witness: a concrete valid open record is emitted both by a boundary
    line and by the flush. -/
theorem c1_truthy_retention_witness :
    (stepLine "AK" (mkUrl "AK" "AK.txt") ⟨some bOpen, [], 0, false⟩ bdLine).benchmarks = [bFin] ∧
    (flushState "AK" (mkUrl "AK" "AK.txt") ⟨some bOpen, [], 0, false⟩).benchmarks = [bFin] := by
  have h := c1_truthy_retention "AK" (mkUrl "AK" "AK.txt") ⟨some bOpen, [], 0, false⟩ bOpen
    bdLine rfl rfl (by decide)
  have hv : (truthyNum bOpen.latitude && truthyNum bOpen.longitude && truthyStr bOpen.id) = true :=
    validB_bOpen
  rw [hv] at h
  simp only [if_pos rfl, finalizeB_bOpen] at h
  exact h

/-! ## Claim C2 -/

/-- C2 (confirmed): every record present in the output collection has a
    numeric latitude different from exactly 0, a numeric longitude
    different from exactly 0, and a non-empty id string: the retention
    check tests JavaScript truthiness. -/
theorem c2_emitted_truthy (sc base : String) (lines : List String) (r : Benchmark)
    (hr : r ∈ parseDatasheetFile sc base lines) :
    (∃ q : ℚ, r.latitude = some (some q) ∧ q ≠ 0) ∧
    (∃ q : ℚ, r.longitude = some (some q) ∧ q ≠ 0) ∧
    (∃ s : String, r.id = some s ∧ s ≠ "") := by
  refine parse_mem sc base lines
    (fun r => (∃ q : ℚ, r.latitude = some (some q) ∧ q ≠ 0) ∧
      (∃ q : ℚ, r.longitude = some (some q) ∧ q ≠ 0) ∧
      (∃ s : String, r.id = some s ∧ s ≠ "")) ?_ r hr
  intro b hv
  unfold validB at hv
  simp only [Bool.and_eq_true] at hv
  obtain ⟨⟨hlat, hlon⟩, hid⟩ := hv
  refine ⟨?_, ?_, ?_⟩
  · obtain ⟨q, hq, hq0⟩ := truthyNum_true _ hlat
    exact ⟨q, by rw [show (finalizeB sc (mkUrl sc base) b).latitude = b.latitude from rfl, hq], hq0⟩
  · obtain ⟨q, hq, hq0⟩ := truthyNum_true _ hlon
    exact ⟨q, by rw [show (finalizeB sc (mkUrl sc base) b).longitude = b.longitude from rfl, hq], hq0⟩
  · obtain ⟨s, hs, hs0⟩ := truthyStr_true _ hid
    exact ⟨s, by rw [show (finalizeB sc (mkUrl sc base) b).id = b.id from rfl, hs], hs0⟩

/-- C2 witness: the single record emitted from the minimal block. -/
theorem c2_emitted_truthy_witness :
    (∃ q : ℚ, bFin.latitude = some (some q) ∧ q ≠ 0) ∧
    (∃ q : ℚ, bFin.longitude = some (some q) ∧ q ≠ 0) ∧
    (∃ s : String, bFin.id = some s ∧ s ≠ "") :=
  c2_emitted_truthy "AK" "AK.txt" blk bFin (by rw [parse_blk_eq]; exact List.mem_singleton.mpr rfl)

/-! ## Claim C3 -/

/-- C3, counterexample: a record block with two matching position lines —
    first 45°30'N/122°30'W, later 41°N/76°W — is emitted with the *later*
    coordinates (41, -76), not the first ones (45.5, -122.5): the source
    has no "first match wins" guard. -/
theorem c3_first_match_counterexample :
    ((parseDatasheetFile "AK" "AK.txt" [bdLine, pidLine, posLine45, posLine2]).map
        (fun r => (r.latitude, r.longitude)) = [(some (some 41), some (some (-76)))]) ∧
    ((parseDatasheetFile "AK" "AK.txt" [bdLine, pidLine, posLine45, posLine2]).map
        (fun r => (r.latitude, r.longitude)) ≠
      [(some (some (91/2)), some (some (-(245/2))))]) := by
  have hv : validB (⟨some "AB1234", none, "Control Point",
      some (dmsToDecimal 41 0 (jsParseFloat "0.00") false),
      some (dmsToDecimal 76 0 (jsParseFloat "0.00") true),
      none, "AK", none, none⟩ : Benchmark) = true := by
    refine validB_truthy_fields _ 41 (-76) "AB1234" ?_ ?_ rfl (by norm_num) (by norm_num) (by decide)
    · show some (dmsToDecimal 41 0 (jsParseFloat "0.00") false) = some (some 41)
      rw [dms_41]
    · show some (dmsToDecimal 76 0 (jsParseFloat "0.00") true) = some (some (-76))
      rw [dms_76W]
  have hp : parseDatasheetFile "AK" "AK.txt" [bdLine, pidLine, posLine45, posLine2] =
      [finalizeB "AK" (mkUrl "AK" "AK.txt") ⟨some "AB1234", none, "Control Point",
        some (dmsToDecimal 41 0 (jsParseFloat "0.00") false),
        some (dmsToDecimal 76 0 (jsParseFloat "0.00") true),
        none, "AK", none, none⟩] := by
    unfold parseDatasheetFile
    rw [show runLines "AK" (mkUrl "AK" "AK.txt") initState [bdLine, pidLine, posLine45, posLine2] =
        ⟨some ⟨some "AB1234", none, "Control Point",
          some (dmsToDecimal 41 0 (jsParseFloat "0.00") false),
          some (dmsToDecimal 76 0 (jsParseFloat "0.00") true),
          none, "AK", none, none⟩, [], 0, false⟩ from rfl]
    rw [flushState_valid _ _ _ _ rfl hv]
    rfl
  have hmap : (parseDatasheetFile "AK" "AK.txt" [bdLine, pidLine, posLine45, posLine2]).map
      (fun r => (r.latitude, r.longitude)) = [(some (some 41), some (some (-76)))] := by
    rw [hp]
    simp only [List.map_cons, List.map_nil]
    show [(some (dmsToDecimal 41 0 (jsParseFloat "0.00") false),
           some (dmsToDecimal 76 0 (jsParseFloat "0.00") true))] = _
    rw [dms_41, dms_76W]
  refine ⟨hmap, ?_⟩
  rw [hmap]
  intro hcontra
  simp only [List.cons.injEq, Prod.mk.injEq, Option.some.injEq, and_true] at hcontra
  have h1 : (41 : ℚ) = 91/2 := hcontra.1
  norm_num at h1

/-- C3, amended: within one record's block every matching position line
    overwrites latitude and longitude, so the final coordinates come from
    the *last* matching position line (or stay unchanged when none
    matches). -/
theorem c3_last_position_wins (sc url : String) (st : PState) (b : Benchmark)
    (lines : List String)
    (hstop : st.stopped = false) (hcur : st.current = some b)
    (hnb : ∀ l ∈ lines, (classify l).boundary = false) :
    runLines sc url st lines = { st with current := some (extFold b lines) } ∧
    ((extFold b lines).latitude, (extFold b lines).longitude) =
      ((lines.reverse.find? (fun l => ((classify l).pos).isSome)).bind
          (fun l => (classify l).pos)).elim
        (b.latitude, b.longitude)
        (fun c => (some (dmsToDecimal c.d1 c.m1 (jsParseFloat c.s1) (c.h1 == 'S')),
                   some (dmsToDecimal c.d2 c.m2 (jsParseFloat c.s2) (c.h2 == 'W')))) :=
  ⟨run_building sc url lines st b hstop hcur hnb, extFold_latlong b lines⟩

/-- C3 witness: with the 45°30' line first and the 41° line second, the
    final coordinates are those of the second (last) position line. -/
theorem c3_last_position_wins_witness :
    runLines "AK" (mkUrl "AK" "AK.txt") ⟨some (freshB "AK"), [], 0, false⟩
        [posLine45, posLine2] =
      ⟨some (extFold (freshB "AK") [posLine45, posLine2]), [], 0, false⟩ ∧
    ((extFold (freshB "AK") [posLine45, posLine2]).latitude,
     (extFold (freshB "AK") [posLine45, posLine2]).longitude) =
      (some (some 41), some (some (-76))) := by
  have h := c3_last_position_wins "AK" (mkUrl "AK" "AK.txt")
    ⟨some (freshB "AK"), [], 0, false⟩ (freshB "AK") [posLine45, posLine2]
    rfl rfl (by decide)
  refine ⟨h.1, ?_⟩
  rw [h.2]
  rw [show ([posLine45, posLine2].reverse.find?
        (fun l => ((classify l).pos).isSome)).bind (fun l => (classify l).pos) =
      some ⟨41, 0, "0.00", 'N', 76, 0, "0.00", 'W'⟩ from by decide]
  show (some (dmsToDecimal 41 0 (jsParseFloat "0.00") ('N' == 'S')),
        some (dmsToDecimal 76 0 (jsParseFloat "0.00") ('W' == 'W'))) = _
  rw [show ('N' == 'S') = false from rfl, show ('W' == 'W') = true from rfl, dms_41, dms_76W]

/-! ## Claim C4 -/

/-- C4, counterexample: the same three-line record block alone is parsed
    into one valid emitted record with id ZZ9999; yet placed after 1000
    valid records in one file, no record with id ZZ9999 ever reaches the
    output collection — the per-file cap of 1000 silently stops reading. -/
theorem c4_unbounded_counterexample :
    parseDatasheetFile "AK" "AK.txt" [bdLine, pidZLine, posLine45] = [bFinZ] ∧
    ∀ r ∈ parseDatasheetFile "AK" "AK.txt"
        (List.flatten (List.replicate 1000 blk) ++ bdLine :: [pidZLine, posLine45]),
      r.id ≠ some "ZZ9999" := by
  constructor
  · have hv : validB (⟨some "ZZ9999", none, "Control Point",
        some (dmsToDecimal 45 30 (jsParseFloat "0.00") false),
        some (dmsToDecimal 122 30 (jsParseFloat "0.00") true),
        none, "AK", none, none⟩ : Benchmark) = true := by
      refine validB_truthy_fields _ (91/2) (-(245/2)) "ZZ9999" ?_ ?_ rfl
        (by norm_num) (by norm_num) (by decide)
      · show some (dmsToDecimal 45 30 (jsParseFloat "0.00") false) = some (some (91/2))
        rw [dms_45_30]
      · show some (dmsToDecimal 122 30 (jsParseFloat "0.00") true) = some (some (-(245/2)))
        rw [dms_122_30W]
    unfold parseDatasheetFile
    rw [show runLines "AK" (mkUrl "AK" "AK.txt") initState [bdLine, pidZLine, posLine45] =
        ⟨some ⟨some "ZZ9999", none, "Control Point",
          some (dmsToDecimal 45 30 (jsParseFloat "0.00") false),
          some (dmsToDecimal 122 30 (jsParseFloat "0.00") true),
          none, "AK", none, none⟩, [], 0, false⟩ from rfl]
    rw [flushState_valid _ _ _ _ rfl hv]
    rfl
  · have hbig := break_emit "AK" "AK.txt" (List.flatten (List.replicate 1000 blk))
      [pidZLine, posLine45] bdLine
      ⟨some bOpen, List.replicate 999 bFin, 999, false⟩ bOpen
      (blockRun 999 (le_refl 999)) rfl rfl validB_bOpen
      (by show maxBenchmarks ≤ 999 + 1; unfold maxBenchmarks; omega) (by decide)
    rw [finalizeB_bOpen] at hbig
    intro r hr
    rw [hbig] at hr
    have hr' : r ∈ List.replicate 999 bFin ++ [bFin, bFin] := hr
    rcases List.mem_append.mp hr' with h | h
    · rw [(List.mem_replicate.mp h).2]
      decide
    · rcases List.mem_cons.mp h with h2 | h2
      · rw [h2]
        decide
      · rw [List.mem_singleton.mp h2]
        decide

/-- C4, amended: emission per file is capped — at most 1000 records are
    emitted at boundary lines (then reading stops) and at most one more by
    the end-of-input flush, so the output collection of one file never
    holds more than 1001 entries. -/
theorem c4_output_bounded (sc base : String) (lines : List String) :
    (parseDatasheetFile sc base lines).length ≤ 1001 := by
  unfold parseDatasheetFile
  obtain ⟨hlen, hf, ht⟩ := runLines_count sc (mkUrl sc base) lines initState rfl
    (fun _ => Nat.zero_le _) (fun _ => Nat.zero_le _)
  have hcount : (runLines sc (mkUrl sc base) initState lines).count ≤ 1000 := by
    cases hs : (runLines sc (mkUrl sc base) initState lines).stopped
    · have := hf hs
      omega
    · exact ht hs
  cases hc : (runLines sc (mkUrl sc base) initState lines).current with
  | none =>
    rw [flushState_none _ _ _ hc]
    omega
  | some b =>
    by_cases hv : validB b = true
    · rw [flushState_valid _ _ _ _ hc hv]
      show ((runLines sc (mkUrl sc base) initState lines).benchmarks ++
        [finalizeB sc (mkUrl sc base) b]).length ≤ 1001
      rw [List.length_append]
      simp only [List.length_singleton]
      omega
    · rw [flushState_invalid _ _ _ _ hc (by simpa using hv)]
      omega

/-! ## Claim C5 -/

/-- C5, counterexample: the record's only keyword line contains CORS before
    VERTICAL; "no priority, last keyword wins even within one line" would
    classify it Vertical Control, but the source's if/else chain gives
    CORS Station — a fixed priority is applied inside a line. -/
theorem c5_no_priority_counterexample :
    ((parseDatasheetFile "AK" "AK.txt" [bdLine, pidLine, posLine45, kwLine]).map
        (fun r => r.type) = ["CORS Station"]) ∧
    lastKeywordCategory kwLine = some "Vertical Control" ∧
    ("CORS Station" : String) ≠ "Vertical Control" := by
  refine ⟨?_, by decide, by decide⟩
  have hv : validB (⟨some "AB1234", none, "CORS Station",
      some (dmsToDecimal 45 30 (jsParseFloat "0.00") false),
      some (dmsToDecimal 122 30 (jsParseFloat "0.00") true),
      none, "AK", none, none⟩ : Benchmark) = true := by
    refine validB_truthy_fields _ (91/2) (-(245/2)) "AB1234" ?_ ?_ rfl
      (by norm_num) (by norm_num) (by decide)
    · show some (dmsToDecimal 45 30 (jsParseFloat "0.00") false) = some (some (91/2))
      rw [dms_45_30]
    · show some (dmsToDecimal 122 30 (jsParseFloat "0.00") true) = some (some (-(245/2)))
      rw [dms_122_30W]
  unfold parseDatasheetFile
  rw [show runLines "AK" (mkUrl "AK" "AK.txt") initState [bdLine, pidLine, posLine45, kwLine] =
      ⟨some ⟨some "AB1234", none, "CORS Station",
        some (dmsToDecimal 45 30 (jsParseFloat "0.00") false),
        some (dmsToDecimal 122 30 (jsParseFloat "0.00") true),
        none, "AK", none, none⟩, [], 0, false⟩ from rfl]
  rw [flushState_valid _ _ _ _ rfl hv]
  rfl

/-- C5, amended: across lines no priority applies — the final `type` is the
    category the per-line classifier assigns to the last keyword-bearing
    line of the block (default kept when none occurs); within a single
    line the classifier itself applies the fixed chain
    PACS, CORS, TRIANGULATION, VERTICAL regardless of position. -/
theorem c5_last_keyword_line (sc url : String) (st : PState) (b : Benchmark)
    (lines : List String)
    (hstop : st.stopped = false) (hcur : st.current = some b)
    (hnb : ∀ l ∈ lines, (classify l).boundary = false) :
    runLines sc url st lines = { st with current := some (extFold b lines) } ∧
    (extFold b lines).type =
      ((lines.reverse.find? (fun l => ((classify l).ty).isSome)).bind
          (fun l => (classify l).ty)).getD b.type :=
  ⟨run_building sc url lines st b hstop hcur hnb, extFold_type b lines⟩

/-- C5 witness: a PACS line followed by a VERTICAL line flips the type to
    Vertical Control — the last keyword line wins across lines. -/
theorem c5_last_keyword_line_witness :
    runLines "AK" (mkUrl "AK" "AK.txt") ⟨some (freshB "AK"), [], 0, false⟩
        [" PACS", " SOME VERTICAL THING"] =
      ⟨some (extFold (freshB "AK") [" PACS", " SOME VERTICAL THING"]), [], 0, false⟩ ∧
    (extFold (freshB "AK") [" PACS", " SOME VERTICAL THING"]).type = "Vertical Control" := by
  have h := c5_last_keyword_line "AK" (mkUrl "AK" "AK.txt")
    ⟨some (freshB "AK"), [], 0, false⟩ (freshB "AK") [" PACS", " SOME VERTICAL THING"]
    rfl rfl (by decide)
  refine ⟨h.1, ?_⟩
  rw [h.2]
  decide

/-! ## Claim C6 -/

/-- C6, counterexample: a line carrying both the boundary marker and a
    matching `PID - ` tag leaves, immediately after the boundary
    transition, an open record whose `id` was set by an extraction rule —
    the boundary line *is* passed to the field extractor. -/
theorem c6_boundary_counterexample :
    (classify comboLine).boundary = true ∧
    ((runLines "AK" (mkUrl "AK" "AK.txt") initState [comboLine]).current.map
      (fun r => r.id)) = some (some "AB9999") := by
  exact ⟨by decide, rfl⟩

/-- C6, amended: a boundary line emits/validates the previous record and
    installs a fresh record, and is then itself passed to the field
    extractor (unless the cap fired): the open record right after the line
    is the fresh record mutated by whatever extraction rules the boundary
    line happens to match; when it matches none, the open record is exactly
    the fresh record. -/
theorem c6_boundary_extractor (sc url : String) (st : PState) (line : String)
    (hbd : (classify line).boundary = true) (hstop : st.stopped = false)
    (hns : (stepLine sc url st line).stopped = false) :
    (stepLine sc url st line).current = some (applyExtract (freshB sc) (classify line)) ∧
    ((classify line).pid = none → (classify line).pos = none → (classify line).elev = none →
      (classify line).name = none → (classify line).ty = none →
      (stepLine sc url st line).current = some (freshB sc)) := by
  have hmain : (stepLine sc url st line).current =
      some (applyExtract (freshB sc) (classify line)) := by
    rw [stepLine_eq] at hns ⊢
    cases hc : st.current with
    | none => rw [stepInfo_boundary_none _ _ _ _ hstop hbd hc]
    | some b =>
      by_cases hv : validB b = true
      · by_cases hcap : maxBenchmarks ≤ st.count + 1
        · exfalso
          rw [stepInfo_boundary_break _ _ _ _ _ hstop hbd hc hv hcap] at hns
          exact Bool.noConfusion hns
        · rw [stepInfo_boundary_push _ _ _ _ _ hstop hbd hc hv (by omega)]
      · rw [stepInfo_boundary_invalid _ _ _ _ _ hstop hbd hc (by simpa using hv)]
  refine ⟨hmain, fun h1 h2 h3 h4 h5 => ?_⟩
  rw [hmain, applyExtract_nomatch _ _ h1 h2 h3 h4 h5]

/-- C6 witness: the pure boundary marker line matches no extraction rule,
    so right after it the open record is exactly the fresh record. -/
theorem c6_boundary_extractor_witness :
    (stepLine "AK" (mkUrl "AK" "AK.txt") initState bdLine).current = some (freshB "AK") :=
  (c6_boundary_extractor "AK" (mkUrl "AK" "AK.txt") initState bdLine (by decide) rfl rfl).2
    (by decide) (by decide) (by decide) (by decide) (by decide)

/-! ## Claim C7 -/

/-- C7 (confirmed): within one record's block the final elevation is the
    parsed value of the *last* line matching an elevation pattern
    (ellipsoidal or orthometric) — last-write-wins, no preference between
    the two height kinds. -/
theorem c7_elevation_last_write (sc url : String) (st : PState) (b : Benchmark)
    (lines : List String)
    (hstop : st.stopped = false) (hcur : st.current = some b)
    (hnb : ∀ l ∈ lines, (classify l).boundary = false) :
    runLines sc url st lines = { st with current := some (extFold b lines) } ∧
    (extFold b lines).elevation =
      ((lines.reverse.find? (fun l => ((classify l).elev).isSome)).bind
          (fun l => (classify l).elev)).elim
        b.elevation (fun cap => some (jsParseFloat cap)) :=
  ⟨run_building sc url lines st b hstop hcur hnb, extFold_elevation b lines⟩

/-- C7 witness: the ELLIP HT 152.910 line followed by the ORTHO HEIGHT
    143.82 line yields elevation 143.82. -/
theorem c7_elevation_last_write_witness :
    runLines "AK" (mkUrl "AK" "AK.txt") ⟨some (freshB "AK"), [], 0, false⟩
        [ellipLine, orthoLine] =
      ⟨some (extFold (freshB "AK") [ellipLine, orthoLine]), [], 0, false⟩ ∧
    (extFold (freshB "AK") [ellipLine, orthoLine]).elevation = some (some (14382/100)) := by
  have h := c7_elevation_last_write "AK" (mkUrl "AK" "AK.txt")
    ⟨some (freshB "AK"), [], 0, false⟩ (freshB "AK") [ellipLine, orthoLine]
    rfl rfl (by decide)
  refine ⟨h.1, ?_⟩
  rw [h.2]
  rw [show ([ellipLine, orthoLine].reverse.find?
        (fun l => ((classify l).elev).isSome)).bind (fun l => (classify l).elev) =
      some "143.82" from by decide]
  show some (jsParseFloat "143.82") = some (some (14382/100))
  rw [jsParseFloat_14382]

/-! ## Claim C8 -/

/-- C8 (confirmed): whenever the position pattern matched with captures
    `(d1, m1, s1, h1, d2, m2, s2, h2)` and the seconds captures parse to
    numbers, the stored coordinates are `deg + min/60 + sec/3600`, negated
    exactly when the hemisphere letter is S (latitude) or W (longitude);
    no range check constrains the degree values. -/
theorem c8_dms_conversion (b : Benchmark) (i : LineInfo) (c : PosCap)
    (hpos : i.pos = some c) (s1q s2q : ℚ)
    (h1 : jsParseFloat c.s1 = some s1q) (h2 : jsParseFloat c.s2 = some s2q) :
    (applyExtract b i).latitude =
      some (some (if c.h1 = 'S' then -((c.d1 : ℚ) + (c.m1 : ℚ) / 60 + s1q / 3600)
        else (c.d1 : ℚ) + (c.m1 : ℚ) / 60 + s1q / 3600)) ∧
    (applyExtract b i).longitude =
      some (some (if c.h2 = 'W' then -((c.d2 : ℚ) + (c.m2 : ℚ) / 60 + s2q / 3600)
        else (c.d2 : ℚ) + (c.m2 : ℚ) / 60 + s2q / 3600)) := by
  constructor
  · rw [applyExtract_latitude, hpos]
    show some (dmsToDecimal c.d1 c.m1 (jsParseFloat c.s1) (c.h1 == 'S')) = _
    rw [h1]
    unfold dmsToDecimal
    simp only [Option.map_some]
    by_cases hc : c.h1 = 'S'
    · rw [if_pos hc, show (c.h1 == 'S') = true from by simp [hc]]
      norm_num
    · rw [if_neg hc, show (c.h1 == 'S') = false from by simp [hc]]
      norm_num
  · rw [applyExtract_longitude, hpos]
    show some (dmsToDecimal c.d2 c.m2 (jsParseFloat c.s2) (c.h2 == 'W')) = _
    rw [h2]
    unfold dmsToDecimal
    simp only [Option.map_some]
    by_cases hc : c.h2 = 'W'
    · rw [if_pos hc, show (c.h2 == 'W') = true from by simp [hc]]
      norm_num
    · rw [if_neg hc, show (c.h2 == 'W') = false from by simp [hc]]
      norm_num

/-- C8 witness: 45°30'0.00"N / 122°30'0.00"W converts to (45.5, -122.5). -/
theorem c8_dms_conversion_witness :
    (applyExtract (freshB "AK") (classify posLine45)).latitude = some (some (91/2)) ∧
    (applyExtract (freshB "AK") (classify posLine45)).longitude = some (some (-(245/2))) := by
  have h := c8_dms_conversion (freshB "AK") (classify posLine45)
    ⟨45, 30, "0.00", 'N', 122, 30, "0.00", 'W'⟩ (by decide) 0 0
    jsParseFloat_000 jsParseFloat_000
  obtain ⟨ha, hb⟩ := h
  constructor
  · rw [ha]
    dsimp only
    rw [if_neg (by decide : ¬ ('N' : Char) = 'S')]
    norm_num
  · rw [hb]
    dsimp only
    rw [if_pos (rfl : ('W' : Char) = 'W')]
    norm_num

/-! ## Claim C9 -/

/-- C9 (confirmed): when the input ends while a record is open, the flush
    validates it and, if valid, appends exactly its finalization as the
    last element of the output collection — the last record needs no
    trailing boundary line. -/
theorem c9_eof_flush (sc base : String) (lines : List String) (b : Benchmark)
    (hcur : (runLines sc (mkUrl sc base) initState lines).current = some b)
    (hv : validB b = true) :
    parseDatasheetFile sc base lines =
      (runLines sc (mkUrl sc base) initState lines).benchmarks ++
        [finalizeB sc (mkUrl sc base) b] := by
  unfold parseDatasheetFile
  rw [flushState_valid _ _ _ _ hcur hv]

/-- C9 witness: the minimal block, whose record is never followed by a
    boundary line, still yields that record. -/
theorem c9_eof_flush_witness :
    parseDatasheetFile "AK" "AK.txt" blk = [bFin] := by
  have h := c9_eof_flush "AK" "AK.txt" blk bOpen rfl validB_bOpen
  rw [h, finalizeB_bOpen]
  rfl

/-! ## Claim C10 -/

/-- C10 (confirmed): when a boundary line finalizes a valid record and the
    emission reaches the per-file cap of 1000, reading stops before a
    fresh record is installed, and the end-of-input flush appends the same
    record a second time: the output ends with that record twice in a row
    and is independent of everything after that boundary line. -/
theorem c10_cap_double_emit (sc base : String) (pre rest : List String) (bd : String)
    (st : PState) (b : Benchmark)
    (hrun : runLines sc (mkUrl sc base) initState pre = st)
    (hstop : st.stopped = false) (hcur : st.current = some b)
    (hv : validB b = true) (hcnt : maxBenchmarks ≤ st.count + 1)
    (hbd : (classify bd).boundary = true) :
    parseDatasheetFile sc base (pre ++ bd :: rest) =
      st.benchmarks ++ [finalizeB sc (mkUrl sc base) b, finalizeB sc (mkUrl sc base) b] :=
  break_emit sc base pre rest bd st b hrun hstop hcur hv hcnt hbd

/-- C10 witness: 1000 valid blocks followed by one more boundary line and
    a junk tail: the 1000th record appears twice consecutively and the
    tail is never read. -/
theorem c10_cap_double_emit_witness :
    parseDatasheetFile "AK" "AK.txt"
        (List.flatten (List.replicate 1000 blk) ++ bdLine :: [pidZLine]) =
      List.replicate 999 bFin ++ [bFin, bFin] := by
  have h := c10_cap_double_emit "AK" "AK.txt" (List.flatten (List.replicate 1000 blk))
    [pidZLine] bdLine ⟨some bOpen, List.replicate 999 bFin, 999, false⟩ bOpen
    (blockRun 999 (le_refl 999)) rfl rfl validB_bOpen
    (by show maxBenchmarks ≤ 999 + 1; unfold maxBenchmarks; omega) (by decide)
  rw [finalizeB_bOpen] at h
  exact h

end NGS
